import Mathlib

/-
Verification of the flutter_rust_bridge code-generation core:
a shallow embedding of `frb_codegen/src/parser/mod.rs` and
`frb_codegen/src/generator/rust/mod.rs`, together with theorems settling the
claims about mode classification, wire-function emission, the exported-symbol
collector, section ordering, the generic-pattern matcher, the executor
detection hook, and parse-time error behaviour.

Rust constructs are embedded as follows: panics become `Except.error`;
`&mut self` state (the extern-function collector, shared struct/enum pools)
becomes explicit state passing; Rust `String` is Lean `String`; the one regex
in the source (`GenericCapture`) is embedded as an executable character-list
matcher equivalent to the anchored pattern it compiles.

Definitions whose Rust source files are not part of the two files above
(ir.rs, parser/ty.rs, the per-type generator files, others.rs) are modelled
from the specification; each such definition carries a doc comment beginning
with "Modelled from the spec:".
-/

deriving instance DecidableEq for Except

/-! ## String helpers -/

/-- Embedding of `type_to_string` (parser/mod.rs): the token string of a type
with every space removed (Rust's `.replace(' ', "")`). -/
def typeToString (tokens : String) : String :=
  String.mk (tokens.data.filter (fun c => c != ' '))

/-- Substring test on character lists: embedding of Rust's `str::contains`. -/
def listContainsSub (pat : List Char) : List Char → Bool
  | [] => pat.isEmpty
  | c :: rest => pat.isPrefixOf (c :: rest) || listContainsSub pat rest

/-- Embedding of Rust's `str::contains` for plain substring patterns. -/
def strContains (s pat : String) : Bool :=
  listContainsSub pat.data s.data

/-- Embedding of Rust's `str::starts_with` for string patterns. -/
def strStartsWith (s pat : String) : Bool :=
  pat.data.isPrefixOf s.data

/-! ## The generic-pattern matcher (`GenericCapture`, parser/mod.rs) -/

/-- The character class `[a-zA-Z0-9_<>()\[\];]` of the `GenericCapture`
regex in parser/mod.rs. -/
def isCaptureClassChar (c : Char) : Bool :=
  c.isAlpha || c.isDigit || c == '_' || c == '<' || c == '>' ||
    c == '(' || c == ')' || c == '[' || c == ']' || c == ';'

/-- Executable embedding of matching the anchored regex
`^[^<]*CLS<([a-zA-Z0-9_<>()\[\];]+)>$` built by `GenericCapture::new` and run
by `GenericCapture::captures`.  Because `[^<]*CLS` must be immediately
followed by a literal `<` and cannot itself contain `<` (the pattern names
used contain no `<`), the prefix of the subject up to its first `<` must end
with `CLS`; the capture group then runs from just after that first `<` to
just before the final character, which must be `>`; the group must be
nonempty and drawn from the character class.  No bracket balancing is
performed by the regex, and none is performed here. -/
def genericCapturesCore (clsName : List Char) (s : List Char) : Option (List Char) :=
  let pre := s.takeWhile (fun c => c != '<')
  match s.dropWhile (fun c => c != '<') with
  | '<' :: tail =>
    if clsName.isSuffixOf pre then
      match tail.reverse with
      | '>' :: revInner =>
        let inner := revInner.reverse
        if inner.isEmpty then none
        else if inner.all isCaptureClassChar then some inner else none
      | _ => none
    else none
  | _ => none

/-- Embedding of `struct GenericCapture` (parser/mod.rs): it is determined by
the class name interpolated into its regex. -/
structure GenericCapture where
  clsName : String
deriving DecidableEq

/-- Embedding of `GenericCapture::new`. -/
def GenericCapture.new (clsName : String) : GenericCapture :=
  ⟨clsName⟩

/-- Embedding of `GenericCapture::captures`: e.g. `List<Tom>` returns `Some(Tom)`. -/
def GenericCapture.captures (g : GenericCapture) (s : String) : Option String :=
  (genericCapturesCore g.clsName.data s.data).map String.mk

/-- Embedding of the lazy static `CAPTURE_RESULT` (parser/mod.rs). -/
def CAPTURE_RESULT : GenericCapture :=
  GenericCapture.new "Result"

/-- Modelled from the spec: the lazy static `CAPTURE_STREAM_SINK` lives in
parser/ty.rs, which is not under src/; the spec's stream-sink wrapper pattern
is the `StreamSink` generic, matched by the same shared matcher. -/
def CAPTURE_STREAM_SINK : GenericCapture :=
  GenericCapture.new "StreamSink"

/-! ## IR model

Modelled from the spec (§3): the IR data definitions live in ir.rs, which is
not under src/. `IrStructPool`/`IrEnumPool` are modelled as lists of the
struct/enum names materialized during resolution (the claims under proof
never inspect pooled field data). -/

/-- Modelled from the spec: the fixed-width primitive kinds of `IrType::Primitive`. -/
inductive IrTypePrimitive where
  | u8 | i8 | u16 | i16 | u32 | i32 | u64 | i64 | f32 | f64 | bool | unit
deriving DecidableEq

/-- Modelled from the spec: delegate kinds; the synchronous-byte-buffer
shortcut `IrTypeDelegate::SyncReturnVecU8` is the one the parser consults. -/
inductive IrTypeDelegate where
  | SyncReturnVecU8
deriving DecidableEq

/-- Modelled from the spec (§3): the closed `IrType` variant. -/
inductive IrType where
  | Primitive (p : IrTypePrimitive)
  | Delegate (d : IrTypeDelegate)
  | PrimitiveList (p : IrTypePrimitive)
  | GeneralList (inner : IrType)
  | Optional (inner : IrType)
  | Boxed (inner : IrType)
  | StructRef (name : String)
  | EnumRef (name : String)
deriving DecidableEq

/-- Modelled from the spec: `IrIdent` wraps a raw name. -/
structure IrIdent where
  raw : String
deriving DecidableEq

/-- Modelled from the spec: `IrIdent::new`. -/
def IrIdent.new (name : String) : IrIdent :=
  ⟨name⟩

/-- Modelled from the spec: `IrIdent::rust_style` renders the raw name. -/
def IrIdent.rustStyle (i : IrIdent) : String :=
  i.raw

/-- Modelled from the spec: `IrField` (name, resolved type, attached docs). -/
structure IrField where
  name : IrIdent
  ty : IrType
  comments : List String
deriving DecidableEq

/-- Modelled from the spec: the calling-convention modes of `IrFuncMode`. -/
inductive IrFuncMode where
  | Normal
  | Sync
  | Stream
deriving DecidableEq

/-- Modelled from the spec (§4.5): the implicit 64-bit call-port parameter is
present exactly in the Normal and Streaming modes (`IrFuncMode::has_port_argument`). -/
def IrFuncMode.hasPortArgument : IrFuncMode → Bool
  | .Normal => true
  | .Stream => true
  | .Sync => false

/-- Modelled from the spec: `IrFuncMode::ffi_call_mode`, the mode label
interpolated into the generated `WrapInfo`. -/
def IrFuncMode.ffiCallMode : IrFuncMode → String
  | .Normal => "Normal"
  | .Sync => "Sync"
  | .Stream => "Stream"

/-- Modelled from the spec (§3): `IrFunc`. -/
structure IrFunc where
  name : String
  inputs : List IrField
  output : IrType
  fallible : Bool
  mode : IrFuncMode
  comments : List String
deriving DecidableEq

/-- Modelled from the spec (§3): `IrFile`; the pools are modelled by the
names they contain. -/
structure IrFile where
  funcs : List IrFunc
  structPool : List String
  enumPool : List String
  hasExecutor : Bool
deriving DecidableEq

/-! ## syn-side input model

The parser consumes a `syn::File` restricted to its public function items.
Only the constructors the source inspects are modelled: typed arguments vs
receivers, identifier patterns vs structural patterns, doc attributes, and
the declared return type as a token string. -/

/-- Doc attributes vs others (`extract_comments` filters `doc = "…"` metas). -/
inductive Attr where
  | doc (text : String)
  | other
deriving DecidableEq

/-- A `syn::Pat`: a simple identifier binding, or any other (structural) pattern. -/
inductive Pat where
  | ident (name : String)
  | other (description : String)
deriving DecidableEq

/-- A `syn::PatType`: binding pattern, type tokens, attached attributes. -/
structure PatType where
  pat : Pat
  ty : String
  attrs : List Attr
deriving DecidableEq

/-- A `syn::FnArg`: a typed argument or a `self` receiver. -/
inductive FnArg where
  | typed (patType : PatType)
  | receiver
deriving DecidableEq

/-- A `syn::ReturnType`: default (no `->`) or a declared type's tokens. -/
inductive ReturnType where
  | default
  | ty (t : String)
deriving DecidableEq

/-- A `syn::Signature`: function name, arguments, return type. -/
structure FnSig where
  ident : String
  inputs : List FnArg
  output : ReturnType
deriving DecidableEq

/-- A `syn::Visibility` restricted to what `extract_fns_from_file` checks. -/
inductive Visibility where
  | publicVis
  | inherited
deriving DecidableEq

/-- A `syn::ItemFn`: visibility, signature, attributes. -/
structure ItemFn where
  vis : Visibility
  sig : FnSig
  attrs : List Attr
deriving DecidableEq

/-- A `syn::Item` restricted to what `extract_fns_from_file` inspects. -/
inductive Item where
  | fn (itemFn : ItemFn)
  | otherItem
deriving DecidableEq

/-- Embedding of `extract_fns_from_file` (parser/mod.rs): keep exactly the
public function items, in order. -/
def extractFnsFromFile (items : List Item) : List ItemFn :=
  items.filterMap fun it =>
    match it with
    | .fn f => match f.vis with
      | .publicVis => some f
      | .inherited => none
    | .otherItem => none

/-- Embedding of `extract_comments` (parser/mod.rs): the doc-attribute texts, in order. -/
def extractComments (attrs : List Attr) : List String :=
  attrs.filterMap fun a =>
    match a with
    | .doc s => some s
    | .other => none

/-! ## Parser -/

/-- The declaration tables built by the source-graph collaborator
(`collect_structs`/`collect_enums`), modelled by the declared names. -/
structure DeclTables where
  structNames : List String
  enumNames : List String
deriving DecidableEq

/-- The panic-class failure conditions of resolution (spec §7). -/
inductive ParseError where
  | UnsupportedSignature (msg : String)
  | UnsupportedType (msg : String)
  | DeclarationNotFound (msg : String)
deriving DecidableEq

/-- Whether a (space-stripped) type string is a bare identifier. -/
def isBareIdent (s : String) : Bool :=
  !s.data.isEmpty && s.data.all (fun c => c.isAlpha || c.isDigit || c == '_')

/-- Modelled from the spec (§4.2): the primitive names the type resolver
recognizes (parser/ty.rs is not under src/). -/
def parsePrimitive : String → Option IrTypePrimitive
  | "u8" => some .u8
  | "i8" => some .i8
  | "u16" => some .u16
  | "i16" => some .i16
  | "u32" => some .u32
  | "i32" => some .i32
  | "u64" => some .u64
  | "i64" => some .i64
  | "f32" => some .f32
  | "f64" => some .f64
  | "bool" => some .bool
  | _ => none

/-- Modelled from the spec (§4.2): `Parser::parse_type` (parser/ty.rs is not
under src/).  Strips container syntax to detect, in turn: the
synchronous-byte-buffer delegate shape, a single-argument optional wrapper, a
single-argument boxed wrapper, a homogeneous list wrapper (primitive element
types yield `PrimitiveList`, others `GeneralList`), a primitive name, or a
bare struct/enum identifier looked up in the declaration tables (enums
first).  Unrecognized shapes fail with `UnsupportedType`; unknown bare
identifiers fail with `DeclarationNotFound`.  Resolution results depend only
on the (immutable) declaration tables, which makes memoization
result-transparent (spec §8, idempotent memoization); pool population is
modelled separately in `Parser.parse`.  Recursion is fuelled by the length of
the signature; each capture strictly shrinks it. -/
def parseTypeCore (tables : DeclTables) : Nat → String → Except ParseError IrType
  | 0, s => .error (.UnsupportedType s)
  | Nat.succ fuel, s =>
    match (GenericCapture.new "SyncReturn").captures s with
    | some inner =>
      if inner = "Vec<u8>" then .ok (.Delegate .SyncReturnVecU8)
      else .error (.UnsupportedType s)
    | none =>
      match (GenericCapture.new "Option").captures s with
      | some inner =>
        match parseTypeCore tables fuel inner with
        | .ok t => .ok (.Optional t)
        | .error e => .error e
      | none =>
        match (GenericCapture.new "Box").captures s with
        | some inner =>
          match parseTypeCore tables fuel inner with
          | .ok t => .ok (.Boxed t)
          | .error e => .error e
        | none =>
          match (GenericCapture.new "Vec").captures s with
          | some inner =>
            match parseTypeCore tables fuel inner with
            | .ok (.Primitive p) => .ok (.PrimitiveList p)
            | .ok t => .ok (.GeneralList t)
            | .error e => .error e
          | none =>
            match parsePrimitive s with
            | some p => .ok (.Primitive p)
            | none =>
              if tables.enumNames.contains s then .ok (.EnumRef s)
              else if tables.structNames.contains s then .ok (.StructRef s)
              else if isBareIdent s then .error (.DeclarationNotFound s)
              else .error (.UnsupportedType s)

/-- `Parser::parse_type` at sufficient fuel. -/
def Parser.parseType (tables : DeclTables) (s : String) : Except ParseError IrType :=
  parseTypeCore tables (s.data.length + 1) s

/-- Embedding of `Parser::try_parse_stream_sink`:
`CAPTURE_STREAM_SINK.captures(ty).map(|inner| self.parse_type(&inner))`. -/
def Parser.tryParseStreamSink (tables : DeclTables) (ty : String) :
    Option (Except ParseError IrType) :=
  (CAPTURE_STREAM_SINK.captures ty).map (Parser.parseType tables)

/-- Embedding of the argument loop of `Parser::parse_function` (parser/mod.rs
lines 93–115): walk `sig.inputs` carrying the accumulated input fields and
the `output`/`mode` options.  A non-`FnArg::Typed` argument and a
non-identifier binding pattern are the two `panic!` sites, embedded as
`UnsupportedSignature` errors. -/
def processInputs (tables : DeclTables) (acc : List IrField)
    (output : Option IrType) (mode : Option IrFuncMode) :
    List FnArg → Except ParseError (List IrField × Option IrType × Option IrFuncMode)
  | [] => .ok (acc, output, mode)
  | .typed pt :: rest =>
    match pt.pat with
    | .ident nm =>
      let typeString := typeToString pt.ty
      match Parser.tryParseStreamSink tables typeString with
      | some (.ok streamSinkInnerType) =>
        processInputs tables acc (some streamSinkInnerType) (some .Stream) rest
      | some (.error e) => .error e
      | none =>
        match Parser.parseType tables typeString with
        | .ok t =>
          processInputs tables
            (acc ++ [{ name := IrIdent.new nm, ty := t, comments := extractComments pt.attrs }])
            output mode rest
        | .error e => .error e
    | .other d => .error (.UnsupportedSignature ("unexpected pat_type=" ++ d))
  | .receiver :: _ => .error (.UnsupportedSignature "unexpected sig_input=receiver")

/-- Embedding of the return-type branch of `Parser::parse_function` (lines
117–132): the declared return type is matched against the fallible-result
pattern; on a match the inner type is resolved and the function stays
fallible, otherwise fallibility is cleared; a missing return type yields the
unit primitive. Returns (output, fallible). -/
def parseReturn (tables : DeclTables) : ReturnType → Except ParseError (IrType × Bool)
  | .ty t =>
    let typeString := typeToString t
    match CAPTURE_RESULT.captures typeString with
    | some inner =>
      match Parser.parseType tables inner with
      | .ok o => .ok (o, true)
      | .error e => .error e
    | none =>
      match Parser.parseType tables typeString with
      | .ok o => .ok (o, false)
      | .error e => .error e
  | .default => .ok (.Primitive .unit, false)

/-- Embedding of `Parser::parse_function` (parser/mod.rs lines 82–152).
`fallible` starts `true` and is only recomputed on the path where no
stream-sink parameter set the output; the mode is recomputed there as `Sync`
exactly when the resolved output is the synchronous-byte-buffer delegate,
`Normal` otherwise. -/
def parseFunction (tables : DeclTables) (func : ItemFn) : Except ParseError IrFunc :=
  match processInputs tables [] none none func.sig.inputs with
  | .error e => .error e
  | .ok (inputs, output0, mode0) =>
    match output0, mode0 with
    | some o, some m =>
      .ok { name := func.sig.ident, inputs := inputs, output := o,
            fallible := true, mode := m, comments := extractComments func.attrs }
    | some _, none => .error (.UnsupportedSignature "unsupported mode")
    | none, _ =>
      match parseReturn tables func.sig.output with
      | .error e => .error e
      | .ok (o, fb) =>
        .ok { name := func.sig.ident, inputs := inputs, output := o,
              fallible := fb,
              mode := if o = IrType.Delegate .SyncReturnVecU8 then .Sync else .Normal,
              comments := extractComments func.attrs }

/-- Embedding of the function loop in `Parser::parse`. -/
def Parser.parseFuncs (tables : DeclTables) : List ItemFn → Except ParseError (List IrFunc)
  | [] => .ok []
  | f :: rest =>
    match parseFunction tables f with
    | .error e => .error e
    | .ok r =>
      match Parser.parseFuncs tables rest with
      | .error e => .error e
      | .ok rs => .ok (r :: rs)

/-- The struct names referenced by a resolved type. -/
def IrType.collectStructRefs : IrType → List String
  | .StructRef n => [n]
  | .GeneralList inner => inner.collectStructRefs
  | .Optional inner => inner.collectStructRefs
  | .Boxed inner => inner.collectStructRefs
  | _ => []

/-- The enum names referenced by a resolved type. -/
def IrType.collectEnumRefs : IrType → List String
  | .EnumRef n => [n]
  | .GeneralList inner => inner.collectEnumRefs
  | .Optional inner => inner.collectEnumRefs
  | .Boxed inner => inner.collectEnumRefs
  | _ => []

/-- All types appearing in a function descriptor (inputs then output). -/
def IrFunc.allTypes (f : IrFunc) : List IrType :=
  f.inputs.map (fun fld => fld.ty) ++ [f.output]

/-- The constant `HANDLER_NAME` (generator/rust/mod.rs). -/
def HANDLER_NAME : String :=
  "FLUTTER_RUST_BRIDGE_HANDLER"

/-- Embedding of `Parser::parse` (parser/mod.rs lines 69–80): parse every
function, record whether the raw source text contains the sentinel handler
identifier (a purely textual `contains` check), and assemble the `IrFile`.
Pool population is modelled as collecting the struct/enum names referenced by
the resolved functions (resolution results are table-determined, so the
interleaved memoization of the source is result-equivalent). -/
def Parser.parse (tables : DeclTables) (sourceRustContent : String)
    (srcFns : List ItemFn) : Except ParseError IrFile :=
  match Parser.parseFuncs tables srcFns with
  | .error e => .error e
  | .ok funcs =>
    .ok { funcs := funcs
        , structPool := ((funcs.map (fun f => (f.allTypes.map IrType.collectStructRefs).flatten)).flatten).eraseDups
        , enumPool := ((funcs.map (fun f => (f.allTypes.map IrType.collectEnumRefs).flatten)).flatten).eraseDups
        , hasExecutor := strContains sourceRustContent HANDLER_NAME }

/-! ## Type-level naming helpers used by the generator

These are methods of `IrType`/`IrFunc` in ir.rs, which is not under src/. -/

/-- Modelled from the spec: the Rust-side spelling of a primitive kind. -/
def IrTypePrimitive.rustName : IrTypePrimitive → String
  | .u8 => "u8"
  | .i8 => "i8"
  | .u16 => "u16"
  | .i16 => "i16"
  | .u32 => "u32"
  | .i32 => "i32"
  | .u64 => "u64"
  | .i64 => "i64"
  | .f32 => "f32"
  | .f64 => "f64"
  | .bool => "bool"
  | .unit => "()"

/-- Modelled from the spec: a deterministic identifier-safe name per type,
used to derive allocation-function names. -/
def IrType.safeIdent : IrType → String
  | .Primitive p => p.rustName
  | .Delegate .SyncReturnVecU8 => "SyncReturnVecU8"
  | .PrimitiveList p => "list_" ++ p.rustName
  | .GeneralList inner => "list_" ++ inner.safeIdent
  | .Optional inner => "opt_" ++ inner.safeIdent
  | .Boxed inner => "box_" ++ inner.safeIdent
  | .StructRef name => name
  | .EnumRef name => name

/-- Modelled from the spec (§3, §6): `IrType::rust_wire_type`, the ABI-facing
wire representation name.  Wire struct/enum names are the domain name plus
the fixed wire prefix; an optional or boxed type uses its inner type's wire
shape (optionality is the pointer, not a distinct shape). -/
def IrType.rustWireType : IrType → String
  | .Primitive p => p.rustName
  | .Delegate .SyncReturnVecU8 => "wire_uint_8_list"
  | .PrimitiveList p => "wire_" ++ p.rustName ++ "_list"
  | .GeneralList inner => "wire_list_" ++ inner.safeIdent
  | .Optional inner => inner.rustWireType
  | .Boxed inner => inner.rustWireType
  | .StructRef name => "wire_" ++ name
  | .EnumRef name => "wire_" ++ name

/-- Modelled from the spec (§3): whether the wire value crosses the boundary
behind a pointer; primitives and the delegate are passed by value. -/
def IrType.rustWireIsPointer : IrType → Bool
  | .Optional _ => true
  | .Boxed _ => true
  | .PrimitiveList _ => true
  | .GeneralList _ => true
  | .StructRef _ => true
  | .EnumRef _ => true
  | _ => false

/-- Modelled from the spec (§3): `IrType::rust_wire_modifier`, the
pointer-indirection modifier prepended to the wire type. -/
def IrType.rustWireModifier (t : IrType) : String :=
  if t.rustWireIsPointer then "*mut " else ""

/-- Modelled from the spec: `IrType::rust_ptr_modifier` (used when sizing
list elements), the same pointer modifier. -/
def IrType.rustPtrModifier (t : IrType) : String :=
  if t.rustWireIsPointer then "*mut " else ""

/-- Modelled from the spec: `IrType::rust_api_type`, the domain-facing name. -/
def IrType.rustApiType : IrType → String
  | .Primitive p => p.rustName
  | .Delegate .SyncReturnVecU8 => "SyncReturn<Vec<u8>>"
  | .PrimitiveList p => "Vec<" ++ p.rustName ++ ">"
  | .GeneralList inner => "Vec<" ++ inner.rustApiType ++ ">"
  | .Optional inner => "Option<" ++ inner.rustApiType ++ ">"
  | .Boxed inner => "Box<" ++ inner.rustApiType ++ ">"
  | .StructRef name => name
  | .EnumRef name => name

/-- Modelled from the spec (§6, naming contract): `IrFunc::wire_func_name`,
the ABI name derived deterministically from the domain function name. -/
def IrFunc.wireFuncName (f : IrFunc) : String :=
  "wire_" ++ f.name

/-- A type together with its recursively nested element types, outermost first. -/
def IrType.selfAndDeps : IrType → List IrType
  | .Primitive p => [.Primitive p]
  | .Delegate d => [.Delegate d]
  | .PrimitiveList p => [.PrimitiveList p, .Primitive p]
  | .GeneralList inner => .GeneralList inner :: inner.selfAndDeps
  | .Optional inner => .Optional inner :: inner.selfAndDeps
  | .Boxed inner => .Boxed inner :: inner.selfAndDeps
  | .StructRef name => [.StructRef name]
  | .EnumRef name => [.EnumRef name]

/-- Modelled from the spec (§3, type-pool deduplication invariant):
`IrFile::distinct_types` flattens every function's input and/or output types,
including nested container/optional/boxed element types, into a deduplicated
list (struct/enum field types are held in the pools and are not re-expanded
here, the pools being modelled by name). -/
def IrFile.distinctTypes (f : IrFile) (includeInputs includeOutputs : Bool) : List IrType :=
  (((f.funcs.map (fun fn =>
      (if includeInputs then fn.inputs.map (fun fld => fld.ty) else []) ++
      (if includeOutputs then [fn.output] else []))).flatten).map IrType.selfAndDeps).flatten.eraseDups

/-! ## Generator (generator/rust/mod.rs) -/

/-- Embedding of `struct ExternFuncCollector`. -/
structure ExternFuncCollector where
  names : List String
deriving DecidableEq

/-- Embedding of `ExternFuncCollector::new`. -/
def ExternFuncCollector.new : ExternFuncCollector :=
  ⟨[]⟩

/-- Embedding of `ExternFuncCollector::generate` (lines 410–431): push the
function name, then render the `#[no_mangle] pub extern "C"` wrapper with the
given parameters, optional return type, and body. -/
def ExternFuncCollector.generate (c : ExternFuncCollector) (funcName : String)
    (params : List String) (returnType : Option String) (body : String) :
    String × ExternFuncCollector :=
  ("\n                #[no_mangle]\n                pub extern \"C\" fn "
      ++ funcName ++ "(" ++ String.intercalate ", " params ++ ") "
      ++ (match returnType with
          | none => ""
          | some r => "-> " ++ r)
      ++ " \x7b\n                    " ++ body ++ "\n                \x7d\n            "
  , { names := c.names ++ [funcName] })

/-- Embedding of `Output` (generator/rust/mod.rs lines 30–33). -/
structure Output where
  code : String
  externFuncNames : List String
deriving DecidableEq

/-- Embedding of `Generator::section_header_comment`. -/
def Generator.sectionHeaderComment (sectionName : String) : String :=
  "// Section: " ++ sectionName ++ "\n"

/-- Modelled from the spec: `CODE_HEADER` lives in others.rs, not under src/;
a fixed header comment. -/
def CODE_HEADER : String :=
  "// AUTO GENERATED FILE, DO NOT EDIT.\n// Generated by the flutter_rust_bridge code generator."

/-- The `#![allow(…)]` line pushed first by `Generator::generate`. -/
def allowLine : String :=
  "#![allow(non_camel_case_types, unused, clippy::redundant_closure, clippy::useless_conversion, clippy::unit_arg, non_snake_case)]"

/-- Modelled from the spec: per-type import emission (`TODO.imports()` in the
source dispatches to per-type generator files not under src/); the modelled
categories need no imports, so this is `None` for every type. -/
def Generator.generateImport (_apiType : IrType) (_apiFile : IrFile) : Option String :=
  none

/-- Embedding of `Generator::generate_imports` (lines 138–161): chain the
per-type imports of the distinct input and output types, drop `None`s, drop
imports from the API module itself, and de-duplicate. -/
def Generator.generateImports (apiFile : IrFile) (rustWireMod : String)
    (distinctInputTypes distinctOutputTypes : List IrType) : List String :=
  (((distinctInputTypes.map (fun t => Generator.generateImport t apiFile)) ++
    (distinctOutputTypes.map (fun t => Generator.generateImport t apiFile))).filterMap id
    |>.filter (fun imp => !(strStartsWith imp ("use crate::" ++ rustWireMod ++ "::")))
    |>.eraseDups)

/-- Embedding of `Generator::generate_executor` (lines 167–179): a comment
when the source already declares the handler, otherwise the lazily
initialized default handler singleton. -/
def Generator.generateExecutor (apiFile : IrFile) : String :=
  if apiFile.hasExecutor then
    "/* nothing since executor detected */"
  else
    "support::lazy_static! \x7b\n                pub static ref " ++ HANDLER_NAME
      ++ ": support::DefaultHandler = Default::default();\n            \x7d\n            "

/-- Embedding of `Generator::generate_sync_execution_mode_utility` (lines
181–188): the exported free function for synchronous return buffers. -/
def Generator.generateSyncExecutionModeUtility (c : ExternFuncCollector) :
    String × ExternFuncCollector :=
  c.generate "free_WireSyncReturnStruct"
    ["val: support::WireSyncReturnStruct"]
    none
    "unsafe \x7b let _ = support::vec_from_leak_ptr(val.ptr, val.len); \x7d"

/-- The `params` local of `Generator::generate_wire_func` (lines 191–209):
the port parameter when the mode has one, then one wire-typed parameter per
input field, in declared order. -/
def wireFuncParams (func : IrFunc) : List String :=
  (if func.mode.hasPortArgument then ["port_: i64"] else []) ++
    func.inputs.map (fun field =>
      field.name.rustStyle ++ ": " ++ field.ty.rustWireModifier ++ field.ty.rustWireType)

/-- The `inner_func_params` local (lines 211–221): the stream sink obtained
from the task callback in Streaming mode, then the converted inputs. -/
def innerFuncParams (func : IrFunc) : List String :=
  (match func.mode with
   | .Normal => []
   | .Sync => []
   | .Stream => ["task_callback.stream_sink()"]) ++
    func.inputs.map (fun field => "api_" ++ field.name.rustStyle)

/-- The `wrap_info_obj` local (lines 223–232). -/
def wrapInfoObj (func : IrFunc) : String :=
  "WrapInfo\x7b debug_name: \"" ++ func.name ++ "\", port: "
    ++ (if func.mode.hasPortArgument then "Some(port_)" else "None")
    ++ ", mode: FfiCallMode::" ++ func.mode.ffiCallMode ++ " \x7d"

/-- The `code_wire2api` local (lines 234–245): one conversion statement per
input. -/
def codeWire2api (func : IrFunc) : String :=
  String.join (func.inputs.map (fun field =>
    "let api_" ++ field.name.rustStyle ++ " = " ++ field.name.rustStyle ++ ".wire2api();"))

/-- The `code_call_inner_func` local (line 247). -/
def codeCallInnerFunc (func : IrFunc) : String :=
  func.name ++ "(" ++ String.intercalate ", " (innerFuncParams func) ++ ")"

/-- The `code_call_inner_func_result` local (lines 249–253): forwarded as-is
when fallible, lifted into `Ok(…)` otherwise. -/
def codeCallInnerFuncResult (func : IrFunc) : String :=
  if func.fallible then codeCallInnerFunc func
  else "Ok(" ++ codeCallInnerFunc func ++ ")"

/-- The `handler_func_name` component of the match on `func.mode` (lines 255–275). -/
def handlerFuncName (func : IrFunc) : String :=
  match func.mode with
  | .Sync => "wrap_sync"
  | .Normal => "wrap"
  | .Stream => "wrap"

/-- The `return_type` component of the match on `func.mode`. -/
def wireReturnType (func : IrFunc) : Option String :=
  match func.mode with
  | .Sync => some "support::WireSyncReturnStruct"
  | .Normal => none
  | .Stream => none

/-- The `code_closure` component of the match on `func.mode`: the conversion
statements followed by the wrapped call (inside a task closure for
Normal/Streaming). -/
def codeClosure (func : IrFunc) : String :=
  match func.mode with
  | .Sync =>
    codeWire2api func ++ "\n                    " ++ codeCallInnerFuncResult func
  | .Normal =>
    codeWire2api func ++ "\n                    move |task_callback| "
      ++ codeCallInnerFuncResult func ++ "\n                    "
  | .Stream =>
    codeWire2api func ++ "\n                    move |task_callback| "
      ++ codeCallInnerFuncResult func ++ "\n                    "

/-- Embedding of `Generator::generate_wire_func` (lines 190–293): register
and render the exported wire function, whose body hands the wrap info and
the closure to the dispatch handler. -/
def Generator.generateWireFunc (c : ExternFuncCollector) (func : IrFunc) :
    String × ExternFuncCollector :=
  c.generate func.wireFuncName (wireFuncParams func) (wireReturnType func)
    ("\n                " ++ HANDLER_NAME ++ "." ++ handlerFuncName func
      ++ "(" ++ wrapInfoObj func ++ ", move || \x7b\n                    "
      ++ codeClosure func ++ "\n                \x7d)\n                ")

/-- Modelled from the spec (§4.6): per-category wire-struct field lists
(`TODO.wire_struct_fields()` dispatches to per-type generator files not under
src/); a list wire shape is pointer plus length; the other categories
contribute no fields to their declaration here. -/
def wireStructFields (ty : IrType) (_apiFile : IrFile) : List String :=
  match ty with
  | .PrimitiveList p => ["ptr: *mut " ++ p.rustName, "len: i32"]
  | .GeneralList inner => ["ptr: *mut " ++ inner.rustWireModifier ++ inner.rustWireType, "len: i32"]
  | _ => []

/-- Embedding of `Generator::generate_wire_struct` (lines 295–310): the
`#[repr(C)]` wire struct declaration for a type. -/
def Generator.generateWireStruct (ty : IrType) (apiFile : IrFile) : String :=
  "\n        #[repr(C)]\n        #[derive(Clone)]\n        pub struct "
    ++ ty.rustWireType ++ " \x7b\n            "
    ++ String.intercalate ",\n" (wireStructFields ty apiFile)
    ++ "\n        \x7d\n        "

/-- Modelled from the spec (§4.6): `generate_wire_enum` lives in ty_enum.rs,
not under src/; an enum's wire shape is a discriminant plus a union-like
payload. -/
def generateWireEnum (name : String) (_apiFile : IrFile) : String :=
  "\n        #[repr(C)]\n        #[derive(Clone)]\n        pub struct wire_" ++ name
    ++ " \x7b\n            tag: i32,\n            payload: *mut u8,\n        \x7d\n        "

/-- Embedding of `Generator::generate_list_allocate_func` (lines 312–333):
the exported `new_…` constructor allocating a null-initialized list of the
given length. -/
def Generator.generateListAllocateFunc (c : ExternFuncCollector) (safeIdent : String)
    (list : IrType) (inner : IrType) : String × ExternFuncCollector :=
  c.generate ("new_" ++ safeIdent)
    ["len: i32"]
    (some (list.rustWireModifier ++ list.rustWireType))
    ("let wrap = " ++ list.rustWireType
      ++ " \x7b ptr: support::new_leak_vec_ptr(<" ++ inner.rustPtrModifier
      ++ inner.rustWireType ++ ">::new_with_null_ptr(), len), len \x7d;\n                support::new_leak_box_ptr(wrap)")

/-- Modelled from the spec (§4.6, Allocation): `TODO.allocate_funcs()`
dispatches to per-type generator files not under src/; allocation functions
exist for the dynamically-sized wire shapes — lists (through the source's
`generate_list_allocate_func`) and boxed values — and for nothing else. -/
def Generator.generateAllocateFuncs (c : ExternFuncCollector) (ty : IrType) :
    String × ExternFuncCollector :=
  match ty with
  | .PrimitiveList p =>
    Generator.generateListAllocateFunc c ty.safeIdent ty (.Primitive p)
  | .GeneralList inner =>
    Generator.generateListAllocateFunc c ty.safeIdent ty inner
  | .Boxed inner =>
    c.generate ("new_" ++ ty.safeIdent) []
      (some (ty.rustWireModifier ++ ty.rustWireType))
      ("support::new_leak_box_ptr(<" ++ inner.rustWireModifier ++ inner.rustWireType
        ++ ">::new_with_null_ptr())")
  | _ => ("", c)

/-- The allocation-function names `Generator.generateAllocateFuncs` registers
for a type. -/
def allocateFuncNames : IrType → List String
  | .PrimitiveList p => ["new_" ++ (IrType.PrimitiveList p).safeIdent]
  | .GeneralList inner => ["new_" ++ (IrType.GeneralList inner).safeIdent]
  | .Boxed inner => ["new_" ++ (IrType.Boxed inner).safeIdent]
  | _ => []

/-- Embedding of `Generator::generate_wire2api_misc` (lines 340–358): the
`Wire2Api` trait and the blanket impl converting any nullable pointer to an
optional domain value. -/
def Generator.generateWire2apiMisc : String :=
  "pub trait Wire2Api<T> \x7b\n            fn wire2api(self) -> T;\n        \x7d\n        \n        impl<T, S> Wire2Api<Option<T>> for *mut S\n            where\n                *mut S: Wire2Api<T>\n        \x7b\n            fn wire2api(self) -> Option<T> \x7b\n                if self.is_null() \x7b\n                    None\n                \x7d else \x7b\n                    Some(self.wire2api())\n                \x7d\n            \x7d\n        \x7d\n        "

/-- Modelled from the spec (§4.6): per-category wire-to-domain conversion
bodies (`TODO.wire2api_body()` dispatches to per-type generator files not
under src/); no claim depends on this text, only on the impl shell around it
(which is in the source). -/
def wire2apiBody (ty : IrType) : String :=
  match ty with
  | .Primitive _ => "self"
  | _ => "self.wire2api_value()"

/-- Embedding of `Generator::generate_wire2api_func` (lines 360–376): the
`Wire2Api` impl shell for one type. -/
def Generator.generateWire2apiFunc (ty : IrType) (_apiFile : IrFile) : String :=
  "impl Wire2Api<" ++ ty.rustApiType ++ "> for "
    ++ (ty.rustWireModifier ++ ty.rustWireType)
    ++ " \x7b\n            fn wire2api(self) -> " ++ ty.rustApiType
    ++ " \x7b\n                " ++ wire2apiBody ty
    ++ "\n            \x7d\n        \x7d\n        "

/-- Embedding of `Generator::generate_new_with_nullptr_misc` (lines 378–389):
the `NewWithNullPtr` trait and the blanket null-pointer constructor for every
pointer-shaped wire type. -/
def Generator.generateNewWithNullptrMisc : String :=
  "pub trait NewWithNullPtr \x7b\n            fn new_with_null_ptr() -> Self;\n        \x7d\n        \n        impl<T> NewWithNullPtr for *mut T \x7b\n            fn new_with_null_ptr() -> Self \x7b\n                std::ptr::null_mut()\n            \x7d\n        \x7d\n        "

/-- Modelled from the spec (§4.6): per-type null-default constructors
(`TODO.new_with_nullptr()` dispatches to per-type generator files not under
src/); the modelled categories are covered by the blanket pointer impl, so no
per-type text is produced. -/
def Generator.generateNewWithNullptrFunc (_ty : IrType) (_apiFile : IrFile) : String :=
  ""

/-- Modelled from the spec (§4.6): per-type domain-to-managed-runtime
conversions (`TODO.impl_intodart()` dispatches to per-type generator files
not under src/); no claim depends on this text. -/
def Generator.generateImplIntodart (_ty : IrType) (_apiFile : IrFile) : String :=
  ""

/-- The per-type selector of the wire-enums section (generator/rust/mod.rs
lines 90–93): only enum references produce a wire enum declaration. -/
def wireEnumSelector (apiFile : IrFile) (ty : IrType) : Option String :=
  match ty with
  | .EnumRef enu => some (generateWireEnum enu apiFile)
  | _ => none

/-- Thread the collector through a per-item generator, keeping the rendered
strings in order (embeds the `lines.extend(… .map(|x| self.generate_…))`
idiom, where `self` carries the collector). -/
def mapWithCollector (f : ExternFuncCollector → α → String × ExternFuncCollector)
    (c : ExternFuncCollector) : List α → List String × ExternFuncCollector
  | [] => ([], c)
  | a :: rest =>
    ((f c a).1 :: (mapWithCollector f (f c a).2 rest).1,
     (mapWithCollector f (f c a).2 rest).2)

/-- Embedding of `Generator::generate` (lines 56–132): the ordered list of
emitted lines, threading the extern-function collector through the sections
that register exported functions. -/
def Generator.generateLines (apiFile : IrFile) (rustWireMod : String)
    (c : ExternFuncCollector) : List String × ExternFuncCollector :=
  let distinctInputTypes := apiFile.distinctTypes true false
  let distinctOutputTypes := apiFile.distinctTypes false true
  let wireFuncs := mapWithCollector Generator.generateWireFunc c apiFile.funcs
  let allocates := mapWithCollector Generator.generateAllocateFuncs wireFuncs.2 distinctInputTypes
  let syncUtil := Generator.generateSyncExecutionModeUtility allocates.2
  ( [allowLine, CODE_HEADER, "",
     "use crate::" ++ rustWireMod ++ "::*;",
     "use flutter_rust_bridge::*;", "",
     Generator.sectionHeaderComment "imports"]
    ++ Generator.generateImports apiFile rustWireMod distinctInputTypes distinctOutputTypes
    ++ [""]
    ++ [Generator.sectionHeaderComment "wire functions"]
    ++ wireFuncs.1
    ++ [Generator.sectionHeaderComment "wire structs"]
    ++ distinctInputTypes.map (fun ty => Generator.generateWireStruct ty apiFile)
    ++ [Generator.sectionHeaderComment "wire enums"]
    ++ distinctInputTypes.filterMap (wireEnumSelector apiFile)
    ++ [Generator.sectionHeaderComment "allocate functions"]
    ++ allocates.1
    ++ [Generator.sectionHeaderComment "impl Wire2Api"]
    ++ [Generator.generateWire2apiMisc]
    ++ distinctInputTypes.map (fun ty => Generator.generateWire2apiFunc ty apiFile)
    ++ [Generator.sectionHeaderComment "impl NewWithNullPtr"]
    ++ [Generator.generateNewWithNullptrMisc]
    ++ distinctInputTypes.map (fun ty => Generator.generateNewWithNullptrFunc ty apiFile)
    ++ [Generator.sectionHeaderComment "impl IntoDart"]
    ++ distinctOutputTypes.map (fun ty => Generator.generateImplIntodart ty apiFile)
    ++ [Generator.sectionHeaderComment "executor"]
    ++ [Generator.generateExecutor apiFile]
    ++ [Generator.sectionHeaderComment "sync execution mode utility"]
    ++ [syncUtil.1]
  , syncUtil.2)

/-- Embedding of the free function `generate` (lines 35–43): run the
generator from a fresh collector, join the lines, and return the code paired
with the collected extern function names. -/
def rustGenerate (apiFile : IrFile) (rustWireMod : String) : Output :=
  let generated := Generator.generateLines apiFile rustWireMod ExternFuncCollector.new
  { code := String.intercalate "\n" generated.1
  , externFuncNames := generated.2.names }

/-- Semantics of the blanket `impl<T, S> Wire2Api<Option<T>> for *mut S`
emitted by `Generator::generate_wire2api_misc`: a `*mut S` value is modelled
as `Option S` (`none` is the null pointer, `some s` a non-null pointer to the
wire value `s`), and the required pointee conversion `*mut S : Wire2Api<T>`
as a function on the pointee; the impl tests `is_null` and otherwise defers
to the pointee's own conversion. -/
def wire2apiOption {S T : Type} (wire2apiPointee : S → T) (self : Option S) : Option T :=
  match self with
  | none => none
  | some s => some (wire2apiPointee s)

/-! ## Statement helpers for the parser claims -/

/-- The stream-sink capture of one argument's type, as tested inside the
argument loop of `Parser::parse_function`. -/
def argSinkCapture (a : FnArg) : Option String :=
  match a with
  | .typed pt => CAPTURE_STREAM_SINK.captures (typeToString pt.ty)
  | .receiver => none

/-- The last stream-sink capture of an argument list, mirroring the loop's
last-write-wins assignment of `output`/`mode`. -/
def lastSinkCapture (acc : Option String) : List FnArg → Option String
  | [] => acc
  | a :: rest =>
    lastSinkCapture (match argSinkCapture a with
                     | some i => some i
                     | none => acc) rest

/-- The bound name of an argument that is not consumed as a stream sink. -/
def argNonSinkName (a : FnArg) : Option String :=
  match a with
  | .typed pt =>
    match pt.pat with
    | .ident nm => if (argSinkCapture (.typed pt)).isSome then none else some nm
    | .other _ => none
  | .receiver => none

/-- The fallible-result capture of a declared return type. -/
def retResultCapture : ReturnType → Option String
  | .ty t => CAPTURE_RESULT.captures (typeToString t)
  | .default => none

/-- The fallible-result capture of a signature's declared return type. -/
def sigResultCapture (sig : FnSig) : Option String :=
  retResultCapture sig.output

/-- Whether one argument passes the loop of `Parser::parse_function` without
a panic or a resolution error. -/
def argOk (tables : DeclTables) (a : FnArg) : Bool :=
  match a with
  | .typed pt =>
    match pt.pat with
    | .ident _ =>
      match Parser.tryParseStreamSink tables (typeToString pt.ty) with
      | some (.ok _) => true
      | some (.error _) => false
      | none =>
        match Parser.parseType tables (typeToString pt.ty) with
        | .ok _ => true
        | .error _ => false
    | .other _ => false
  | .receiver => false

/-! ## Sample inputs used by the witnesses -/

def sampleTables : DeclTables :=
  { structNames := ["Config"], enumNames := [] }

def sampleResultFn : ItemFn :=
  { vis := .publicVis
  , sig := { ident := "load"
           , inputs := [.typed { pat := .ident "id", ty := "u32", attrs := [] }]
           , output := .ty "Result < Config >" }
  , attrs := [] }

def sampleResultIr : IrFunc :=
  { name := "load"
  , inputs := [{ name := ⟨"id"⟩, ty := .Primitive .u32, comments := [] }]
  , output := .StructRef "Config"
  , fallible := true
  , mode := .Normal
  , comments := [] }

def sampleStreamFn : ItemFn :=
  { vis := .publicVis
  , sig := { ident := "subscribe"
           , inputs := [.typed { pat := .ident "sink", ty := "StreamSink < i32 >", attrs := [] }]
           , output := .default }
  , attrs := [] }

def sampleStreamIr : IrFunc :=
  { name := "subscribe"
  , inputs := []
  , output := .Primitive .i32
  , fallible := true
  , mode := .Stream
  , comments := [] }

def sampleBadFn : ItemFn :=
  { vis := .publicVis
  , sig := { ident := "bad"
           , inputs := [ .typed { pat := .ident "a", ty := "u32", attrs := [] }
                       , .typed { pat := .other "TuplePat(x,y)", ty := "(i32, i32)", attrs := [] } ]
           , output := .default }
  , attrs := [] }

/-- The bracket-discipline the claim ascribes to the matcher: angle brackets
of the capture are balanced relative to the outer pair, with nesting depth at
most `limit`. -/
def anglesigBalAux (limit : Nat) : Nat → List Char → Bool
  | depth, [] => depth == 0
  | depth, c :: rest =>
    if c = '<' then decide (depth < limit) && anglesigBalAux limit (depth + 1) rest
    else if c = '>' then
      match depth with
      | 0 => false
      | d + 1 => anglesigBalAux limit d rest
    else anglesigBalAux limit depth rest

/-- Whether a string's angle brackets are matched, never nesting deeper than
`limit` levels. -/
def anglesBalancedLE (limit : Nat) (s : String) : Bool :=
  anglesigBalAux limit 0 s.data

/-- `mid` occurs as a contiguous segment of `s`. -/
def strSeg (s mid : String) : Prop :=
  ∃ pre post, s = pre ++ mid ++ post

def sampleSyncIr : IrFunc :=
  { name := "f"
  , inputs := []
  , output := .Delegate .SyncReturnVecU8
  , fallible := false
  , mode := .Sync
  , comments := [] }

def sampleIrFile1 : IrFile :=
  { funcs := [{ name := "f", inputs := [], output := .Primitive .unit,
                fallible := false, mode := .Normal, comments := [] }]
  , structPool := []
  , enumPool := []
  , hasExecutor := false }

/-- The section header lines of an emitted line list, in order. -/
def sectionLines (lines : List String) : List String :=
  lines.filter (fun l => strStartsWith l "// Section: ")

def emptyIrFile : IrFile :=
  { funcs := [], structPool := [], enumPool := [], hasExecutor := false }

def sampleExecSource : String :=
  "mod api_generated; /* uses FLUTTER_RUST_BRIDGE_HANDLER */"

/-! ## Parser lemmas -/

theorem lastSinkCapture_init (args : List FnArg) :
    ∀ o : Option String,
      lastSinkCapture o args =
        match lastSinkCapture none args with
        | some j => some j
        | none => o := by
  induction args with
  | nil => intro o; rfl
  | cons a rest ih =>
    intro o
    show lastSinkCapture _ rest = _
    rw [ih]
    conv_rhs => rw [lastSinkCapture, ih]
    cases hrest : lastSinkCapture none rest with
    | some j => rfl
    | none =>
      cases hc : argSinkCapture a with
      | some i => rfl
      | none => rfl

theorem lastSinkCapture_eq_none_iff (args : List FnArg) :
    lastSinkCapture none args = none ↔ ∀ a ∈ args, argSinkCapture a = none := by
  induction args with
  | nil => simp [lastSinkCapture]
  | cons a rest ih =>
    rw [lastSinkCapture, lastSinkCapture_init]
    cases hrest : lastSinkCapture none rest with
    | some j =>
      constructor
      · intro h; cases h
      · intro h
        have hnone : lastSinkCapture none rest = none :=
          ih.mpr (fun x hx => h x (List.mem_cons_of_mem a hx))
        rw [hnone] at hrest
        cases hrest
    | none =>
      cases hc : argSinkCapture a with
      | some i =>
        constructor
        · intro h; cases h
        · intro h
          have hca := h a (List.mem_cons_self a rest)
          rw [hc] at hca
          cases hca
      | none =>
        constructor
        · intro _ x hx
          rcases List.mem_cons.mp hx with rfl | hx'
          · exact hc
          · exact (ih.mp hrest) x hx'
        · intro _
          rfl

theorem processInputs_ok (tables : DeclTables) :
    ∀ (args : List FnArg) (acc : List IrField) (out : Option IrType) (md : Option IrFuncMode)
      (res : List IrField × Option IrType × Option IrFuncMode),
      processInputs tables acc out md args = .ok res →
      res.1.map (fun fld => fld.name.raw) =
          acc.map (fun fld => fld.name.raw) ++ args.filterMap argNonSinkName
      ∧ (match lastSinkCapture none args with
         | none => res.2.1 = out ∧ res.2.2 = md
         | some inner => ∃ t, Parser.parseType tables inner = .ok t ∧
             res.2.1 = some t ∧ res.2.2 = some IrFuncMode.Stream) := by
  intro args
  induction args with
  | nil =>
    intro acc out md res h
    simp only [processInputs, Except.ok.injEq] at h
    subst h
    exact ⟨by simp, by simp [lastSinkCapture]⟩
  | cons a rest ih =>
    intro acc out md res h
    cases a with
    | receiver => simp [processInputs] at h
    | typed pt =>
      obtain ⟨pat, pty, pattrs⟩ := pt
      cases pat with
      | other d => simp [processInputs] at h
      | ident nm =>
        simp only [processInputs, Parser.tryParseStreamSink] at h
        cases hc : CAPTURE_STREAM_SINK.captures (typeToString pty) with
        | none =>
          rw [hc] at h
          simp only [Option.map_none'] at h
          cases hpt : Parser.parseType tables (typeToString pty) with
          | error e => rw [hpt] at h; cases h
          | ok t =>
            rw [hpt] at h
            obtain ⟨h1, h2⟩ := ih _ _ _ _ h
            constructor
            · rw [h1]
              rw [List.filterMap_cons]
              have hn : argNonSinkName (.typed ⟨Pat.ident nm, pty, pattrs⟩) = some nm := by
                simp [argNonSinkName, argSinkCapture, hc]
              rw [hn]
              simp [IrIdent.new]
            · have hstep : lastSinkCapture none (FnArg.typed ⟨Pat.ident nm, pty, pattrs⟩ :: rest) =
                  lastSinkCapture none rest := by
                rw [lastSinkCapture]
                simp [argSinkCapture, hc]
              rw [hstep]
              exact h2
        | some inner =>
          rw [hc] at h
          simp only [Option.map_some'] at h
          cases hpt : Parser.parseType tables inner with
          | error e => rw [hpt] at h; cases h
          | ok t =>
            rw [hpt] at h
            obtain ⟨h1, h2⟩ := ih _ _ _ _ h
            constructor
            · rw [h1]
              rw [List.filterMap_cons]
              have hn : argNonSinkName (.typed ⟨Pat.ident nm, pty, pattrs⟩) = none := by
                simp [argNonSinkName, argSinkCapture, hc]
              rw [hn]
            · have hstep : lastSinkCapture none (FnArg.typed ⟨Pat.ident nm, pty, pattrs⟩ :: rest) =
                  lastSinkCapture (some inner) rest := by
                rw [lastSinkCapture]
                simp [argSinkCapture, hc]
              rw [hstep, lastSinkCapture_init]
              cases hrest : lastSinkCapture none rest with
              | none =>
                rw [hrest] at h2
                exact ⟨t, hpt, h2⟩
              | some j =>
                rw [hrest] at h2
                exact h2

theorem processInputs_skip (tables : DeclTables) (a : FnArg) (ha : argOk tables a = true) :
    ∀ (acc : List IrField) (out : Option IrType) (md : Option IrFuncMode) (rest : List FnArg),
      ∃ acc' out' md',
        processInputs tables acc out md (a :: rest) = processInputs tables acc' out' md' rest := by
  cases a with
  | receiver => simp [argOk] at ha
  | typed pt =>
    obtain ⟨pat, pty, pattrs⟩ := pt
    cases pat with
    | other d => simp [argOk] at ha
    | ident nm =>
      intro acc out md rest
      simp only [argOk] at ha
      cases hts : Parser.tryParseStreamSink tables (typeToString pty) with
      | some exc =>
        cases exc with
        | ok t =>
          refine ⟨acc, some t, some .Stream, ?_⟩
          simp only [Parser.tryParseStreamSink, Option.map_eq_some'] at hts
          rcases hts with ⟨inner, hinner, hparse⟩
          simp only [processInputs, Parser.tryParseStreamSink, hinner, Option.map_some', hparse]
        | error e =>
          rw [hts] at ha
          simp at ha
      | none =>
        rw [hts] at ha
        simp only [Parser.tryParseStreamSink, Option.map_eq_none'] at hts
        cases hpt : Parser.parseType tables (typeToString pty) with
        | ok t =>
          refine ⟨acc ++ [{ name := IrIdent.new nm, ty := t, comments := extractComments pattrs }],
                  out, md, ?_⟩
          simp only [processInputs, Parser.tryParseStreamSink, hts, Option.map_none', hpt]
        | error e =>
          rw [hpt] at ha
          simp at ha

theorem processInputs_bad (tables : DeclTables) (post : List FnArg) (pt : PatType) (d : String)
    (hpat : pt.pat = .other d) :
    ∀ (pre : List FnArg), (∀ a ∈ pre, argOk tables a = true) →
      ∀ (acc : List IrField) (out : Option IrType) (md : Option IrFuncMode),
        processInputs tables acc out md (pre ++ FnArg.typed pt :: post) =
          .error (.UnsupportedSignature ("unexpected pat_type=" ++ d)) := by
  intro pre
  induction pre with
  | nil =>
    intro _ acc out md
    obtain ⟨pat, pty, pattrs⟩ := pt
    simp only [] at hpat
    subst hpat
    simp [processInputs]
  | cons a pre' ih =>
    intro hok acc out md
    obtain ⟨acc', out', md', hskip⟩ :=
      processInputs_skip tables a (hok a (List.mem_cons_self a pre')) acc out md
        (pre' ++ FnArg.typed pt :: post)
    rw [List.cons_append, hskip]
    exact ih (fun x hx => hok x (List.mem_cons_of_mem a hx)) acc' out' md'

theorem parseReturn_spec (tables : DeclTables) (ret : ReturnType) (o : IrType) (fb : Bool)
    (h : parseReturn tables ret = .ok (o, fb)) :
    (∀ inner, retResultCapture ret = some inner →
      fb = true ∧ Parser.parseType tables inner = .ok o)
    ∧ (retResultCapture ret = none → fb = false) := by
  cases ret with
  | default =>
    simp only [parseReturn, Except.ok.injEq, Prod.mk.injEq] at h
    obtain ⟨ho, hfb⟩ := h
    subst ho
    subst hfb
    constructor
    · intro inner hinner
      cases hinner
    · intro _
      rfl
  | ty t =>
    simp only [parseReturn] at h
    cases hc : CAPTURE_RESULT.captures (typeToString t) with
    | some inner0 =>
      rw [hc] at h
      have h2 : (match Parser.parseType tables inner0 with
          | Except.ok o2 => Except.ok (o2, true)
          | Except.error e => Except.error e) = Except.ok (o, fb) := h
      cases hpt : Parser.parseType tables inner0 with
      | error e => rw [hpt] at h2; cases h2
      | ok o2 =>
        rw [hpt] at h2
        simp only [Except.ok.injEq, Prod.mk.injEq] at h2
        obtain ⟨ho, hfb⟩ := h2
        subst ho
        subst hfb
        constructor
        · intro inner hinner
          rw [retResultCapture, hc] at hinner
          obtain rfl := Option.some.injEq .. ▸ hinner
          exact ⟨rfl, hpt⟩
        · intro hnone
          rw [retResultCapture, hc] at hnone
          cases hnone
    | none =>
      rw [hc] at h
      have h2 : (match Parser.parseType tables (typeToString t) with
          | Except.ok o2 => Except.ok (o2, false)
          | Except.error e => Except.error e) = Except.ok (o, fb) := h
      cases hpt : Parser.parseType tables (typeToString t) with
      | error e => rw [hpt] at h2; cases h2
      | ok o2 =>
        rw [hpt] at h2
        simp only [Except.ok.injEq, Prod.mk.injEq] at h2
        obtain ⟨ho, hfb⟩ := h2
        subst ho
        subst hfb
        constructor
        · intro inner hinner
          rw [retResultCapture, hc] at hinner
          cases hinner
        · intro _
          rfl

/-! ## Claims C1, C9, C10 -/

/-- C1: For every parsed public function: if some parameter's type matches
the stream-sink pattern, the function's mode is Streaming, its output is the
resolution of that pattern's inner type (the last such parameter's, the
loop's assignment being last-write-wins), and no stream-sink parameter is
present in the IrFunc's input list — the inputs are exactly the non-sink
parameters, in order; if no stream-sink parameter was found and the declared
return type matches the fallible-result pattern, the function is fallible
with output equal to the inner type; if (on that same no-stream-sink path)
the resolved output is the synchronous-byte-buffer delegate type, the mode is
Sync; all other functions are Normal and infallible (and in particular never
Streaming). -/
theorem C1_function_classification (tables : DeclTables) (func : ItemFn) (r : IrFunc)
    (h : parseFunction tables func = .ok r) :
    (r.inputs.map (fun fld => fld.name.raw) = func.sig.inputs.filterMap argNonSinkName)
    ∧ (∀ inner, lastSinkCapture none func.sig.inputs = some inner →
        r.mode = .Stream ∧ Parser.parseType tables inner = .ok r.output)
    ∧ (lastSinkCapture none func.sig.inputs = none →
        ∀ inner, sigResultCapture func.sig = some inner →
          r.fallible = true ∧ Parser.parseType tables inner = .ok r.output)
    ∧ (lastSinkCapture none func.sig.inputs = none →
        r.mode = (if r.output = IrType.Delegate .SyncReturnVecU8 then .Sync else .Normal))
    ∧ (lastSinkCapture none func.sig.inputs = none → sigResultCapture func.sig = none →
        r.fallible = false ∧ r.mode ≠ .Stream)
    ∧ (lastSinkCapture none func.sig.inputs = none ↔
        ∀ a ∈ func.sig.inputs, argSinkCapture a = none) := by
  have hiff := lastSinkCapture_eq_none_iff func.sig.inputs
  simp only [parseFunction] at h
  cases hpi : processInputs tables [] none none func.sig.inputs with
  | error e => rw [hpi] at h; cases h
  | ok triple =>
    obtain ⟨inputs, out0, md0⟩ := triple
    rw [hpi] at h
    obtain ⟨hnames, hsink⟩ := processInputs_ok tables func.sig.inputs [] none none _ hpi
    simp only [List.map_nil, List.nil_append] at hnames
    cases out0 with
    | some o =>
      cases md0 with
      | none => cases h
      | some m =>
        simp only [Except.ok.injEq] at h
        subst h
        refine ⟨hnames, ?_, ?_, ?_, ?_, hiff⟩
        · intro inner hlast
          rw [hlast] at hsink
          obtain ⟨t, hpt, hout, hmd⟩ := hsink
          simp only [Option.some.injEq] at hout hmd
          subst hout
          subst hmd
          exact ⟨rfl, hpt⟩
        · intro hlast
          rw [hlast] at hsink
          cases hsink.1
        · intro hlast
          rw [hlast] at hsink
          cases hsink.1
        · intro hlast
          rw [hlast] at hsink
          cases hsink.1
    | none =>
      cases hpr : parseReturn tables func.sig.output with
      | error e => rw [hpr] at h; cases h
      | ok pair =>
        obtain ⟨o, fb⟩ := pair
        rw [hpr] at h
        simp only [Except.ok.injEq] at h
        subst h
        have spec := parseReturn_spec tables func.sig.output o fb hpr
        refine ⟨hnames, ?_, ?_, ?_, ?_, hiff⟩
        · intro inner hlast
          rw [hlast] at hsink
          obtain ⟨t, _, hout, _⟩ := hsink
          cases hout
        · intro _ inner hres
          exact spec.1 inner hres
        · intro _
          rfl
        · intro _ hres
          refine ⟨spec.2 hres, ?_⟩
          show (if o = IrType.Delegate .SyncReturnVecU8 then IrFuncMode.Sync else .Normal) ≠ .Stream
          split
          · simp
          · simp

/-- Witness for C1 at the concrete fallible function `load(id: u32) -> Result<Config>`. -/
theorem C1_witness :
    parseFunction sampleTables sampleResultFn = .ok sampleResultIr
    ∧ sampleResultIr.fallible = true
    ∧ Parser.parseType sampleTables "Config" = .ok sampleResultIr.output
    ∧ sampleResultIr.mode = .Normal := by
  have h : parseFunction sampleTables sampleResultFn = .ok sampleResultIr := by decide
  have main := C1_function_classification sampleTables sampleResultFn sampleResultIr h
  have h3 := main.2.2.1 (by decide) "Config" (by decide)
  have h4 := main.2.2.2.1 (by decide)
  refine ⟨h, h3.1, h3.2, ?_⟩
  rw [h4]
  decide

/-- C10: Every parsed function whose mode is Streaming has `fallible = true`,
regardless of the declared return type: the flag is initialized to `true` and
is only recomputed on the path taken when no stream-sink parameter was found,
a path on which the mode is never Streaming. -/
theorem C10_streaming_always_fallible (tables : DeclTables) (func : ItemFn) (r : IrFunc)
    (h : parseFunction tables func = .ok r) (hm : r.mode = .Stream) :
    r.fallible = true := by
  simp only [parseFunction] at h
  cases hpi : processInputs tables [] none none func.sig.inputs with
  | error e => rw [hpi] at h; cases h
  | ok triple =>
    obtain ⟨inputs, out0, md0⟩ := triple
    rw [hpi] at h
    cases out0 with
    | some o =>
      cases md0 with
      | none => cases h
      | some m =>
        simp only [Except.ok.injEq] at h
        subst h
        rfl
    | none =>
      cases hpr : parseReturn tables func.sig.output with
      | error e => rw [hpr] at h; cases h
      | ok pair =>
        obtain ⟨o, fb⟩ := pair
        rw [hpr] at h
        simp only [Except.ok.injEq] at h
        exfalso
        have hmode : (if o = IrType.Delegate IrTypeDelegate.SyncReturnVecU8
            then IrFuncMode.Sync else IrFuncMode.Normal) = IrFuncMode.Stream := by
          rw [← hm, ← h]
        split at hmode
        · cases hmode
        · cases hmode

/-- Witness for C10 at the concrete streaming function `subscribe(sink: StreamSink<i32>)`. -/
theorem C10_witness :
    parseFunction sampleTables sampleStreamFn = .ok sampleStreamIr
    ∧ sampleStreamIr.mode = .Stream
    ∧ sampleStreamIr.fallible = true :=
  ⟨by decide, by decide,
    C10_streaming_always_fallible sampleTables sampleStreamFn sampleStreamIr
      (by decide) (by decide)⟩

/-- C9: Parsing a function with a parameter whose binding pattern is not a
simple identifier (tuple/structural destructuring) fails with the panic-class
`UnsupportedSignature` condition, and no IrFunc is produced; the parameters
to its left are assumed to pass the loop (`argOk`), matching the loop's
left-to-right processing order. -/
theorem C9_destructured_param_rejected (tables : DeclTables) (func : ItemFn)
    (pre post : List FnArg) (pt : PatType) (d : String)
    (hsig : func.sig.inputs = pre ++ FnArg.typed pt :: post)
    (hpat : pt.pat = .other d)
    (hpre : ∀ a ∈ pre, argOk tables a = true) :
    parseFunction tables func = .error (.UnsupportedSignature ("unexpected pat_type=" ++ d))
    ∧ ∀ r : IrFunc, parseFunction tables func ≠ .ok r := by
  have hbad := processInputs_bad tables post pt d hpat pre hpre [] none none
  have hmain : parseFunction tables func =
      .error (.UnsupportedSignature ("unexpected pat_type=" ++ d)) := by
    simp only [parseFunction, hsig, hbad]
  exact ⟨hmain, fun r hok => by rw [hmain] at hok; cases hok⟩

/-- Witness for C9 at a concrete function whose second parameter is a tuple pattern. -/
theorem C9_witness :
    parseFunction sampleTables sampleBadFn =
      .error (.UnsupportedSignature ("unexpected pat_type=" ++ "TuplePat(x,y)"))
    ∧ parseFunction sampleTables sampleBadFn ≠
        .ok { name := "bad", inputs := [], output := .Primitive .unit,
              fallible := false, mode := .Normal, comments := [] } := by
  have main := C9_destructured_param_rejected sampleTables sampleBadFn
    [.typed { pat := .ident "a", ty := "u32", attrs := [] }] []
    { pat := .other "TuplePat(x,y)", ty := "(i32, i32)", attrs := [] }
    "TuplePat(x,y)" (by decide) (by decide) (by decide)
  exact ⟨main.1, main.2 _⟩

/-! ## Claim C7: the generic-pattern matcher -/

theorem takeWhile_lt_append (xs ys : List Char) (hx : ∀ c ∈ xs, c ≠ '<') :
    (xs ++ '<' :: ys).takeWhile (fun c => c != '<') = xs := by
  induction xs with
  | nil => simp [List.takeWhile_cons]
  | cons a l ih =>
    have ha : (a != '<') = true := by
      simpa using hx a (List.mem_cons_self a l)
    simp only [List.cons_append, List.takeWhile_cons, ha]
    simp only [if_true]
    rw [ih (fun c hc => hx c (List.mem_cons_of_mem a hc))]

theorem dropWhile_lt_append (xs ys : List Char) (hx : ∀ c ∈ xs, c ≠ '<') :
    (xs ++ '<' :: ys).dropWhile (fun c => c != '<') = '<' :: ys := by
  induction xs with
  | nil => simp [List.dropWhile_cons]
  | cons a l ih =>
    have ha : (a != '<') = true := by
      simpa using hx a (List.mem_cons_self a l)
    simp only [List.cons_append, List.dropWhile_cons, ha]
    simp only [if_true]
    exact ih (fun c hc => hx c (List.mem_cons_of_mem a hc))

/-- C7 (amended): the matcher, applied to a whitespace-stripped signature,
returns `some inner` exactly when the signature splits as
`p ++ cls ++ "<" ++ inner ++ ">"` where `p ++ cls` contains no `<` (so the
first `<` of the signature immediately follows the pattern name), the final
character is `>`, and `inner` is a nonempty word over the class
`[a-zA-Z0-9_<>()\[\];]` — with no bracket-balance or nesting-depth condition
on `inner` whatsoever. -/
theorem C7_matcher_characterization (cls s inner : List Char) (hcls : '<' ∉ cls) :
    genericCapturesCore cls s = some inner ↔
      ∃ p : List Char, s = p ++ cls ++ '<' :: (inner ++ ['>']) ∧ '<' ∉ p ∧
        inner ≠ [] ∧ ∀ c ∈ inner, isCaptureClassChar c = true := by
  constructor
  · intro h
    simp only [genericCapturesCore] at h
    split at h
    case h_2 => cases h
    case h_1 c tail heq =>
      split at h
      case isFalse => cases h
      case isTrue hsuf =>
        split at h
        case h_2 => cases h
        case h_1 c2 revInner heq2 =>
          split at h
          case isTrue => cases h
          case isFalse hemp =>
            split at h
            case isFalse => cases h
            case isTrue hall =>
              simp only [Option.some.injEq] at h
              subst h
              have hpre : ∀ x ∈ s.takeWhile (fun c => c != '<'), x ≠ '<' := by
                intro x hx
                have := List.mem_takeWhile_imp hx
                simpa using this
              obtain ⟨p, hp⟩ : ∃ t, t ++ cls = s.takeWhile (fun c => c != '<') :=
                (List.isSuffixOf_iff_suffix.mp hsuf)
              have hs : s = s.takeWhile (fun c => c != '<') ++ '<' :: tail := by
                conv_lhs => rw [← List.takeWhile_append_dropWhile
                  (p := fun c => c != '<') (l := s)]
                rw [heq]
              have htail : tail = revInner.reverse ++ ['>'] := by
                have := congrArg List.reverse heq2
                simpa using this
              refine ⟨p, ?_, ?_, ?_, ?_⟩
              · rw [hs, ← hp, htail]
              · intro hmem
                exact hpre '<' (hp ▸ List.mem_append_left cls hmem) rfl
              · intro hnil
                rw [hnil] at hemp
                simp at hemp
              · exact List.all_eq_true.mp hall
  · rintro ⟨p, hs, hpl, hne, hall⟩
    subst hs
    have hx : ∀ c ∈ p ++ cls, c ≠ '<' := by
      intro c hc hceq
      subst hceq
      rcases List.mem_append.mp hc with hc1 | hc2
      · exact hpl hc1
      · exact hcls hc2
    have htw := takeWhile_lt_append (p ++ cls) (inner ++ ['>']) hx
    have hdw := dropWhile_lt_append (p ++ cls) (inner ++ ['>']) hx
    rw [List.append_assoc] at htw hdw ⊢
    simp only [genericCapturesCore, htw, hdw]
    have hsuf : cls.isSuffixOf (p ++ cls) = true :=
      List.isSuffixOf_iff_suffix.mpr ⟨p, rfl⟩
    rw [hsuf]
    simp only [if_true, List.reverse_append, List.reverse_cons, List.reverse_nil,
      List.nil_append, List.singleton_append, List.reverse_reverse]
    have hemp : inner.isEmpty = false := by
      cases inner with
      | nil => cases hne rfl
      | cons a l => rfl
    rw [hemp]
    simp only [Bool.false_eq_true, if_false]
    rw [List.all_eq_true.mpr hall]
    simp

/-- C7 counterexample: the matcher accepts captures with unmatched or
arbitrarily nested angle brackets (refuting "X contains no unmatched angle
brackets … one level of nested generic arguments is tolerated … returns None
on any other shape"), and rejects a balanced one-level capture containing a
comma (refuting the "only when" shape description in the other direction). -/
theorem C7_counterexample :
    CAPTURE_RESULT.captures "Result<a>b>" = some "a>b"
    ∧ anglesBalancedLE 1 "a>b" = false
    ∧ CAPTURE_RESULT.captures "Result<a<b<c>>>" = some "a<b<c>>"
    ∧ anglesBalancedLE 1 "a<b<c>>" = false
    ∧ CAPTURE_RESULT.captures "Result<HashMap<a,b>>" = none
    ∧ anglesBalancedLE 1 "HashMap<a,b>" = true := by
  decide

/-- Witness for the amended C7 at the concrete signature `Result<i32>`. -/
theorem C7_witness :
    ('<' ∉ "Result".data)
    ∧ (genericCapturesCore "Result".data "Result<i32>".data = some "i32".data ↔
        ∃ p : List Char, "Result<i32>".data = p ++ "Result".data ++ '<' :: ("i32".data ++ ['>'])
          ∧ '<' ∉ p ∧ "i32".data ≠ [] ∧ ∀ c ∈ "i32".data, isCaptureClassChar c = true) :=
  ⟨by decide, C7_matcher_characterization "Result".data "Result<i32>".data "i32".data (by decide)⟩

/-! ## Claims C2, C3, C4 -/

theorem strAppendEmpty (s : String) : s ++ "" = s := by
  cases s with
  | mk l =>
    show String.mk (l ++ []) = String.mk l
    rw [List.append_nil]

/-- C2: In the generated wire-to-domain conversion layer, converting a
pointer-shaped wire value to an optional domain value yields the absent value
on a null pointer and `Some` of the pointee's own conversion otherwise; the
blanket impl is generic in the pointee (one rule for every type category),
and the optional wire shape is just the pointer to the inner type's wire
shape — no separate optional-struct/optional-list shape exists; the blanket
impl's text is emitted into every generated file. -/
theorem C2_optional_null_pointer_rule :
    (∀ (S T : Type) (f : S → T),
        wire2apiOption f none = none ∧ ∀ s : S, wire2apiOption f (some s) = some (f s))
    ∧ (∀ inner : IrType, (IrType.Optional inner).rustWireType = inner.rustWireType
        ∧ (IrType.Optional inner).rustWireModifier = "*mut ")
    ∧ (∀ (apiFile : IrFile) (rustWireMod : String) (c : ExternFuncCollector),
        Generator.generateWire2apiMisc ∈ (Generator.generateLines apiFile rustWireMod c).1) := by
  refine ⟨fun S T f => ⟨rfl, fun s => rfl⟩, fun inner => ⟨rfl, rfl⟩, ?_⟩
  intro apiFile rustWireMod c
  simp [Generator.generateLines]

/-- Witness for C2 at a concrete pointee conversion and a concrete optional type. -/
theorem C2_witness :
    wire2apiOption (fun n : Nat => n + 1) none = none
    ∧ wire2apiOption (fun n : Nat => n + 1) (some 41) = some 42
    ∧ (IrType.Optional (.StructRef "Config")).rustWireType = "wire_Config" := by
  have main := C2_optional_null_pointer_rule
  refine ⟨(main.1 Nat Nat (fun n => n + 1)).1, ?_, ?_⟩
  · simpa using (main.1 Nat Nat (fun n => n + 1)).2 41
  · rw [(main.2.1 (.StructRef "Config")).1]
    decide

/-- C3: In every generated wire function, the call into the domain function
is forwarded as-is when the function is fallible and wrapped in the success
constructor `Ok(…)` otherwise, and this uniform result sits inside the
closure handed to the dispatch handler, after the per-input conversions. -/
theorem C3_uniform_result_wrapping (c : ExternFuncCollector) (func : IrFunc) :
    codeCallInnerFuncResult func =
      (if func.fallible then codeCallInnerFunc func
       else "Ok(" ++ codeCallInnerFunc func ++ ")")
    ∧ strSeg (Generator.generateWireFunc c func).1
        (HANDLER_NAME ++ "." ++ handlerFuncName func ++ "(" ++ wrapInfoObj func
          ++ ", move || \x7b\n                    " ++ codeWire2api func
          ++ (match func.mode with
              | .Sync => "\n                    "
              | .Normal => "\n                    move |task_callback| "
              | .Stream => "\n                    move |task_callback| ")
          ++ codeCallInnerFuncResult func) := by
  refine ⟨rfl, ?_⟩
  cases hmode : func.mode with
  | Sync =>
    refine ⟨"\n                #[no_mangle]\n                pub extern \"C\" fn "
        ++ func.wireFuncName ++ "(" ++ String.intercalate ", " (wireFuncParams func)
        ++ ") " ++ ("-> " ++ "support::WireSyncReturnStruct") ++ " \x7b\n                    "
        ++ "\n                ",
      "\n                \x7d)\n                " ++ "\n                \x7d\n            ", ?_⟩
    simp only [Generator.generateWireFunc, ExternFuncCollector.generate, wireReturnType,
      handlerFuncName, codeClosure, hmode, String.append_assoc]
  | Normal =>
    refine ⟨"\n                #[no_mangle]\n                pub extern \"C\" fn "
        ++ func.wireFuncName ++ "(" ++ String.intercalate ", " (wireFuncParams func)
        ++ ") " ++ "" ++ " \x7b\n                    "
        ++ "\n                ",
      "\n                    " ++ "\n                \x7d)\n                "
        ++ "\n                \x7d\n            ", ?_⟩
    simp only [Generator.generateWireFunc, ExternFuncCollector.generate, wireReturnType,
      handlerFuncName, codeClosure, hmode, String.append_assoc]
  | Stream =>
    refine ⟨"\n                #[no_mangle]\n                pub extern \"C\" fn "
        ++ func.wireFuncName ++ "(" ++ String.intercalate ", " (wireFuncParams func)
        ++ ") " ++ "" ++ " \x7b\n                    "
        ++ "\n                ",
      "\n                    " ++ "\n                \x7d)\n                "
        ++ "\n                \x7d\n            ", ?_⟩
    simp only [Generator.generateWireFunc, ExternFuncCollector.generate, wireReturnType,
      handlerFuncName, codeClosure, hmode, String.append_assoc]

/-- Witness for C3 at a concrete infallible function. -/
theorem C3_witness :
    codeCallInnerFuncResult sampleStreamIr =
      (if sampleStreamIr.fallible then codeCallInnerFunc sampleStreamIr
       else "Ok(" ++ codeCallInnerFunc sampleStreamIr ++ ")")
    ∧ strSeg (Generator.generateWireFunc ExternFuncCollector.new sampleStreamIr).1
        (HANDLER_NAME ++ "." ++ handlerFuncName sampleStreamIr ++ "(" ++ wrapInfoObj sampleStreamIr
          ++ ", move || \x7b\n                    " ++ codeWire2api sampleStreamIr
          ++ (match sampleStreamIr.mode with
              | .Sync => "\n                    "
              | .Normal => "\n                    move |task_callback| "
              | .Stream => "\n                    move |task_callback| ")
          ++ codeCallInnerFuncResult sampleStreamIr) :=
  C3_uniform_result_wrapping ExternFuncCollector.new sampleStreamIr

/-- C4: The exported parameter list of every generated wire function begins
with the implicit 64-bit call-port parameter exactly in the Normal and
Streaming modes (it is absent in Sync mode), followed by one wire-typed
parameter per input field, in declared order; and that list is what is
rendered between the parentheses of the exported function. -/
theorem C4_port_then_inputs (c : ExternFuncCollector) (func : IrFunc) :
    wireFuncParams func =
      (match func.mode with
       | .Normal => ["port_: i64"]
       | .Stream => ["port_: i64"]
       | .Sync => []) ++
        func.inputs.map (fun field =>
          field.name.rustStyle ++ ": " ++ field.ty.rustWireModifier ++ field.ty.rustWireType)
    ∧ strSeg (Generator.generateWireFunc c func).1
        ("pub extern \"C\" fn " ++ func.wireFuncName ++ "("
          ++ String.intercalate ", " (wireFuncParams func) ++ ")") := by
  constructor
  · cases hmode : func.mode <;>
      simp [wireFuncParams, IrFuncMode.hasPortArgument, hmode]
  · refine ⟨"\n                #[no_mangle]\n                ",
      " " ++ (match wireReturnType func with
              | none => ""
              | some r => "-> " ++ r)
        ++ " \x7b\n                    "
        ++ ("\n                " ++ HANDLER_NAME ++ "." ++ handlerFuncName func
            ++ "(" ++ wrapInfoObj func ++ ", move || \x7b\n                    "
            ++ codeClosure func ++ "\n                \x7d)\n                ")
        ++ "\n                \x7d\n            ", ?_⟩
    have h1 : ("\n                #[no_mangle]\n                pub extern \"C\" fn " : String)
        = "\n                #[no_mangle]\n                " ++ "pub extern \"C\" fn " := rfl
    have h2 : (") " : String) = ")" ++ " " := rfl
    simp only [Generator.generateWireFunc, ExternFuncCollector.generate]
    rw [h1, h2]
    simp only [String.append_assoc]

/-- Witness for C4 at a concrete Sync-mode function. -/
theorem C4_witness :
    wireFuncParams sampleSyncIr = [] ++ sampleSyncIr.inputs.map (fun field =>
        field.name.rustStyle ++ ": " ++ field.ty.rustWireModifier ++ field.ty.rustWireType)
    ∧ strSeg (Generator.generateWireFunc ExternFuncCollector.new sampleSyncIr).1
        ("pub extern \"C\" fn " ++ sampleSyncIr.wireFuncName ++ "("
          ++ String.intercalate ", " (wireFuncParams sampleSyncIr) ++ ")") := by
  have main := C4_port_then_inputs ExternFuncCollector.new sampleSyncIr
  exact ⟨main.1, main.2⟩

/-! ## Claim C5: the Exported-Symbol Collector -/

theorem ExternFuncCollector.generate_names (c : ExternFuncCollector) (funcName : String)
    (params : List String) (returnType : Option String) (body : String) :
    ((c.generate funcName params returnType body).2).names = c.names ++ [funcName] :=
  rfl

theorem generateWireFunc_names (c : ExternFuncCollector) (f : IrFunc) :
    ((Generator.generateWireFunc c f).2).names = c.names ++ [f.wireFuncName] :=
  rfl

theorem generateSyncUtility_names (c : ExternFuncCollector) :
    ((Generator.generateSyncExecutionModeUtility c).2).names =
      c.names ++ ["free_WireSyncReturnStruct"] :=
  rfl

theorem generateAllocateFuncs_names (c : ExternFuncCollector) (ty : IrType) :
    ((Generator.generateAllocateFuncs c ty).2).names = c.names ++ allocateFuncNames ty := by
  cases ty with
  | PrimitiveList p => rfl
  | GeneralList inner => rfl
  | Boxed inner => rfl
  | Primitive p => simp [Generator.generateAllocateFuncs, allocateFuncNames]
  | Delegate d => simp [Generator.generateAllocateFuncs, allocateFuncNames]
  | Optional inner => simp [Generator.generateAllocateFuncs, allocateFuncNames]
  | StructRef n => simp [Generator.generateAllocateFuncs, allocateFuncNames]
  | EnumRef n => simp [Generator.generateAllocateFuncs, allocateFuncNames]

theorem mapWithCollector_names {α : Type} (f : ExternFuncCollector → α → String × ExternFuncCollector)
    (g : α → List String) (hf : ∀ c a, ((f c a).2).names = c.names ++ g a) :
    ∀ (l : List α) (c : ExternFuncCollector),
      ((mapWithCollector f c l).2).names = c.names ++ (l.map g).flatten := by
  intro l
  induction l with
  | nil => intro c; simp [mapWithCollector]
  | cons a rest ih =>
    intro c
    simp only [mapWithCollector]
    rw [ih ((f c a).2), hf]
    simp [List.map_cons, List.flatten_cons, List.append_assoc]

theorem flatten_singleton_map {α β : Type} (g : α → β) (l : List α) :
    (l.map (fun a => [g a])).flatten = l.map g := by
  induction l with
  | nil => rfl
  | cons a rest ih => simp [ih]

theorem wirePrefix_injective : Function.Injective (fun n : String => "wire_" ++ n) := by
  intro a b h
  have hd := congrArg String.data h
  simp only [String.data_append] at hd
  have hcancel := List.append_cancel_left hd
  exact congrArg String.mk hcancel

/-- C5 counterexample: for an IR with N = 1 functions bearing distinct domain
names, the collector yields two names — the wire function's and the
always-registered sync-return free utility's — not "exactly N distinct
names". -/
theorem C5_counterexample :
    (sampleIrFile1.funcs.map (fun f => f.name)).Nodup
    ∧ sampleIrFile1.funcs.length = 1
    ∧ (rustGenerate sampleIrFile1 "api").externFuncNames =
        ["wire_f", "free_WireSyncReturnStruct"]
    ∧ (rustGenerate sampleIrFile1 "api").externFuncNames.length ≠ 1 := by
  decide

/-- C5 (amended): every externally-callable function the engine emits is
registered in the collector at the moment of emission, so after a full run
the collector holds exactly: the wire-function names (one per IR function, in
order), then the allocation-function names of the distinct input types, then
the sync-return free utility; and for N functions with N distinct domain
names the N wire names are themselves distinct (the ABI name derivation is
injective). -/
theorem C5_collector_contents (ir : IrFile) (rustWireMod : String) :
    (rustGenerate ir rustWireMod).externFuncNames =
      ir.funcs.map IrFunc.wireFuncName
        ++ ((ir.distinctTypes true false).map allocateFuncNames).flatten
        ++ ["free_WireSyncReturnStruct"]
    ∧ ((ir.funcs.map (fun f => f.name)).Nodup → (ir.funcs.map IrFunc.wireFuncName).Nodup) := by
  constructor
  · show ((Generator.generateLines ir rustWireMod ExternFuncCollector.new).2).names = _
    simp only [Generator.generateLines]
    rw [generateSyncUtility_names]
    rw [mapWithCollector_names Generator.generateAllocateFuncs allocateFuncNames
      generateAllocateFuncs_names]
    rw [mapWithCollector_names Generator.generateWireFunc (fun f => [f.wireFuncName])
      generateWireFunc_names]
    rw [flatten_singleton_map]
    simp [ExternFuncCollector.new, List.append_assoc]
  · intro hnd
    have hmm : ir.funcs.map IrFunc.wireFuncName =
        (ir.funcs.map (fun f => f.name)).map (fun n => "wire_" ++ n) := by
      rw [List.map_map]
      rfl
    rw [hmm]
    exact hnd.map wirePrefix_injective

/-- Witness for the amended C5 at a concrete one-function IR. -/
theorem C5_witness :
    (rustGenerate sampleIrFile1 "api").externFuncNames =
      sampleIrFile1.funcs.map IrFunc.wireFuncName
        ++ ((sampleIrFile1.distinctTypes true false).map allocateFuncNames).flatten
        ++ ["free_WireSyncReturnStruct"]
    ∧ (sampleIrFile1.funcs.map IrFunc.wireFuncName).Nodup := by
  have main := C5_collector_contents sampleIrFile1 "api"
  exact ⟨main.1, main.2 (by decide)⟩

/-! ## Claim C6: the emitted sections -/

theorem isPrefixOf_self_append : ∀ (p r : List Char), p.isPrefixOf (p ++ r) = true := by
  intro p
  induction p with
  | nil =>
    intro r
    cases r with
    | nil => rfl
    | cons a l => rfl
  | cons a l ih =>
    intro r
    simp [List.isPrefixOf, ih]

theorem strStartsWith_header (name : String) :
    strStartsWith (Generator.sectionHeaderComment name) "// Section: " = true := by
  simp only [strStartsWith, Generator.sectionHeaderComment, String.data_append]
  rw [List.append_assoc]
  exact isPrefixOf_self_append _ _

theorem wireFuncLine_not_section (c : ExternFuncCollector) (f : IrFunc) :
    strStartsWith (Generator.generateWireFunc c f).1 "// Section: " = false :=
  rfl

theorem wireStructLine_not_section (ty : IrType) (apiFile : IrFile) :
    strStartsWith (Generator.generateWireStruct ty apiFile) "// Section: " = false :=
  rfl

theorem wireEnumLine_not_section (name : String) (apiFile : IrFile) :
    strStartsWith (generateWireEnum name apiFile) "// Section: " = false :=
  rfl

theorem allocateLine_not_section (c : ExternFuncCollector) (ty : IrType) :
    strStartsWith (Generator.generateAllocateFuncs c ty).1 "// Section: " = false := by
  cases ty <;> rfl

theorem wire2apiFuncLine_not_section (ty : IrType) (apiFile : IrFile) :
    strStartsWith (Generator.generateWire2apiFunc ty apiFile) "// Section: " = false :=
  rfl

theorem nullptrFuncLine_not_section (ty : IrType) (apiFile : IrFile) :
    strStartsWith (Generator.generateNewWithNullptrFunc ty apiFile) "// Section: " = false :=
  rfl

theorem intodartLine_not_section (ty : IrType) (apiFile : IrFile) :
    strStartsWith (Generator.generateImplIntodart ty apiFile) "// Section: " = false :=
  rfl

theorem executorLine_not_section (apiFile : IrFile) :
    strStartsWith (Generator.generateExecutor apiFile) "// Section: " = false := by
  cases hex : apiFile.hasExecutor with
  | true => simp only [Generator.generateExecutor, hex]; rfl
  | false => simp only [Generator.generateExecutor, hex]; rfl

theorem syncUtilLine_not_section (c : ExternFuncCollector) :
    strStartsWith (Generator.generateSyncExecutionModeUtility c).1 "// Section: " = false :=
  rfl

theorem useCrateLine_not_section (rustWireMod : String) :
    strStartsWith ("use crate::" ++ rustWireMod ++ "::*;") "// Section: " = false :=
  rfl

theorem filter_map_eq_nil {α β : Type} (p : β → Bool) (f : α → β) (l : List α)
    (h : ∀ a, p (f a) = false) : (l.map f).filter p = [] := by
  induction l with
  | nil => rfl
  | cons a r ih => simp [List.filter_cons, h, ih]

theorem filter_filterMap_eq_nil {α β : Type} (p : β → Bool) (f : α → Option β) (l : List α)
    (h : ∀ a b, f a = some b → p b = false) : (l.filterMap f).filter p = [] := by
  induction l with
  | nil => rfl
  | cons a r ih =>
    cases hf : f a with
    | none => simp [List.filterMap_cons, hf, ih]
    | some b => simp [List.filterMap_cons, hf, List.filter_cons, h a b hf, ih]

theorem filter_mapWithCollector_eq_nil {α : Type} (p : String → Bool)
    (f : ExternFuncCollector → α → String × ExternFuncCollector)
    (h : ∀ c a, p ((f c a).1) = false) :
    ∀ (l : List α) (c : ExternFuncCollector), ((mapWithCollector f c l).1).filter p = [] := by
  intro l
  induction l with
  | nil => intro c; rfl
  | cons a r ih =>
    intro c
    simp only [mapWithCollector]
    simp [List.filter_cons, h, ih]

theorem filterMap_id_map_none {α β : Type} (l : List α) :
    (l.map (fun _ => (none : Option β))).filterMap id = [] := by
  induction l with
  | nil => rfl
  | cons a r ih => simp [List.filterMap_cons, ih]

theorem generateImports_eq_nil (apiFile : IrFile) (rustWireMod : String)
    (d1 d2 : List IrType) :
    Generator.generateImports apiFile rustWireMod d1 d2 = [] := by
  simp only [Generator.generateImports, Generator.generateImport]
  rw [List.filterMap_append, filterMap_id_map_none, filterMap_id_map_none]
  rfl

theorem sectionLines_generateLines (ir : IrFile) (rustWireMod : String)
    (c : ExternFuncCollector) :
    sectionLines (Generator.generateLines ir rustWireMod c).1 =
      [Generator.sectionHeaderComment "imports",
       Generator.sectionHeaderComment "wire functions",
       Generator.sectionHeaderComment "wire structs",
       Generator.sectionHeaderComment "wire enums",
       Generator.sectionHeaderComment "allocate functions",
       Generator.sectionHeaderComment "impl Wire2Api",
       Generator.sectionHeaderComment "impl NewWithNullPtr",
       Generator.sectionHeaderComment "impl IntoDart",
       Generator.sectionHeaderComment "executor",
       Generator.sectionHeaderComment "sync execution mode utility"] := by
  have hallow : strStartsWith allowLine "// Section: " = false := rfl
  have hhead : strStartsWith CODE_HEADER "// Section: " = false := rfl
  have hempty : strStartsWith "" "// Section: " = false := rfl
  have hflutter : strStartsWith "use flutter_rust_bridge::*;" "// Section: " = false := rfl
  have hmisc1 : strStartsWith Generator.generateWire2apiMisc "// Section: " = false := rfl
  have hmisc2 : strStartsWith Generator.generateNewWithNullptrMisc "// Section: " = false := rfl
  have henum : ∀ (a : IrType) (b : String), wireEnumSelector ir a = some b →
      strStartsWith b "// Section: " = false := by
    intro a b hab
    cases a with
    | EnumRef n =>
      simp only [wireEnumSelector, Option.some.injEq] at hab
      rw [← hab]
      exact wireEnumLine_not_section n ir
    | Primitive p => cases hab
    | Delegate d => cases hab
    | PrimitiveList p => cases hab
    | GeneralList inner => cases hab
    | Optional inner => cases hab
    | Boxed inner => cases hab
    | StructRef n => cases hab
  simp only [sectionLines, Generator.generateLines]
  rw [generateImports_eq_nil]
  simp only [List.filter_append]
  rw [filter_mapWithCollector_eq_nil _ Generator.generateWireFunc wireFuncLine_not_section]
  rw [filter_mapWithCollector_eq_nil _ Generator.generateAllocateFuncs allocateLine_not_section]
  rw [filter_map_eq_nil (fun l => strStartsWith l "// Section: ")
    (fun ty => Generator.generateWireStruct ty ir) _
    (fun ty => wireStructLine_not_section ty ir)]
  rw [filter_map_eq_nil (fun l => strStartsWith l "// Section: ")
    (fun ty => Generator.generateWire2apiFunc ty ir) _
    (fun ty => wire2apiFuncLine_not_section ty ir)]
  rw [filter_map_eq_nil (fun l => strStartsWith l "// Section: ")
    (fun ty => Generator.generateNewWithNullptrFunc ty ir) _
    (fun ty => nullptrFuncLine_not_section ty ir)]
  rw [filter_map_eq_nil (fun l => strStartsWith l "// Section: ")
    (fun ty => Generator.generateImplIntodart ty ir) _
    (fun ty => intodartLine_not_section ty ir)]
  rw [filter_filterMap_eq_nil (fun l => strStartsWith l "// Section: ")
    (wireEnumSelector ir) _ henum]
  simp [List.filter_cons, strStartsWith_header, hallow, hhead, hempty, hflutter,
    hmisc1, hmisc2, useCrateLine_not_section, executorLine_not_section,
    syncUtilLine_not_section]

/-- C6 (amended): the generated output consists of exactly ten sections, in
this fixed order: imports; per-function wire functions; per-type wire
structs; per-type wire enums; per-type allocation functions; per-type
wire-to-domain conversions (impl Wire2Api); per-type null-default
constructors (impl NewWithNullPtr); per-type domain-to-managed-runtime
conversions (impl IntoDart); dispatch/executor glue; and, after the executor
glue, one further section: the sync-execution-mode utility (the exported free
function for synchronous return buffers). -/
theorem C6_ten_sections (ir : IrFile) (rustWireMod : String) (c : ExternFuncCollector) :
    sectionLines (Generator.generateLines ir rustWireMod c).1 =
      [Generator.sectionHeaderComment "imports",
       Generator.sectionHeaderComment "wire functions",
       Generator.sectionHeaderComment "wire structs",
       Generator.sectionHeaderComment "wire enums",
       Generator.sectionHeaderComment "allocate functions",
       Generator.sectionHeaderComment "impl Wire2Api",
       Generator.sectionHeaderComment "impl NewWithNullPtr",
       Generator.sectionHeaderComment "impl IntoDart",
       Generator.sectionHeaderComment "executor",
       Generator.sectionHeaderComment "sync execution mode utility"] :=
  sectionLines_generateLines ir rustWireMod c

/-- C6 counterexample: already on the empty IR the generated text has ten
section headers, not nine — the section that follows the executor glue is the
sync-execution-mode utility — so "exactly nine sections … with no further
sections after the executor glue" is false. -/
theorem C6_counterexample :
    sectionLines (Generator.generateLines emptyIrFile "api" ExternFuncCollector.new).1 ≠
      [Generator.sectionHeaderComment "imports",
       Generator.sectionHeaderComment "wire functions",
       Generator.sectionHeaderComment "wire structs",
       Generator.sectionHeaderComment "wire enums",
       Generator.sectionHeaderComment "allocate functions",
       Generator.sectionHeaderComment "impl Wire2Api",
       Generator.sectionHeaderComment "impl NewWithNullPtr",
       Generator.sectionHeaderComment "impl IntoDart",
       Generator.sectionHeaderComment "executor"]
    ∧ (sectionLines (Generator.generateLines emptyIrFile "api" ExternFuncCollector.new).1).getLast?
        = some (Generator.sectionHeaderComment "sync execution mode utility") := by
  constructor
  · rw [sectionLines_generateLines]
    decide
  · rw [sectionLines_generateLines]
    decide

/-- Witness for the amended C6 at the empty IR. -/
theorem C6_witness :
    sectionLines (Generator.generateLines emptyIrFile "api" ExternFuncCollector.new).1 =
      [Generator.sectionHeaderComment "imports",
       Generator.sectionHeaderComment "wire functions",
       Generator.sectionHeaderComment "wire structs",
       Generator.sectionHeaderComment "wire enums",
       Generator.sectionHeaderComment "allocate functions",
       Generator.sectionHeaderComment "impl Wire2Api",
       Generator.sectionHeaderComment "impl NewWithNullPtr",
       Generator.sectionHeaderComment "impl IntoDart",
       Generator.sectionHeaderComment "executor",
       Generator.sectionHeaderComment "sync execution mode utility"] :=
  C6_ten_sections emptyIrFile "api" ExternFuncCollector.new

/-! ## Claim C8: the custom-handler detection hook -/

theorem generateExecutor_spec (file : IrFile) :
    strContains (Generator.generateExecutor file) "DefaultHandler" = !file.hasExecutor
    ∧ (file.hasExecutor = true →
        Generator.generateExecutor file = "/* nothing since executor detected */") := by
  cases hex : file.hasExecutor with
  | true =>
    refine ⟨?_, fun _ => ?_⟩
    · simp only [Generator.generateExecutor, hex]
      decide
    · simp only [Generator.generateExecutor, hex]
      rfl
  | false =>
    refine ⟨?_, fun hcontra => ?_⟩
    · simp only [Generator.generateExecutor, hex]
      decide
    · cases hcontra

/-- C8: The IR's custom-dispatch-handler flag is set exactly when the raw
source text contains the sentinel handler identifier as a substring (a purely
textual check); when the flag is set the executor section contains no default
handler (it is only the placeholder comment), and when it is clear the
executor section is the lazily-initialized default handler singleton (whose
text mentions `DefaultHandler`). -/
theorem C8_executor_detection (tables : DeclTables) (sourceRustContent : String)
    (srcFns : List ItemFn) (file : IrFile)
    (h : Parser.parse tables sourceRustContent srcFns = .ok file) :
    file.hasExecutor = strContains sourceRustContent HANDLER_NAME
    ∧ strContains (Generator.generateExecutor file) "DefaultHandler" = !file.hasExecutor
    ∧ (file.hasExecutor = true →
        Generator.generateExecutor file = "/* nothing since executor detected */") := by
  refine ⟨?_, (generateExecutor_spec file).1, (generateExecutor_spec file).2⟩
  simp only [Parser.parse] at h
  cases hpf : Parser.parseFuncs tables srcFns with
  | error e => rw [hpf] at h; cases h
  | ok funcs =>
    rw [hpf] at h
    simp only [Except.ok.injEq] at h
    rw [← h]

/-- Witness for C8 at a concrete source text containing the sentinel. -/
theorem C8_witness :
    Parser.parse sampleTables sampleExecSource [] =
      .ok { funcs := [], structPool := [], enumPool := [], hasExecutor := true }
    ∧ ({ funcs := [], structPool := [], enumPool := [], hasExecutor := true } : IrFile).hasExecutor
        = strContains sampleExecSource HANDLER_NAME
    ∧ Generator.generateExecutor
        { funcs := [], structPool := [], enumPool := [], hasExecutor := true }
        = "/* nothing since executor detected */" := by
  have h : Parser.parse sampleTables sampleExecSource [] =
      .ok { funcs := [], structPool := [], enumPool := [], hasExecutor := true } := by
    decide
  have main := C8_executor_detection sampleTables sampleExecSource [] _ h
  exact ⟨h, main.1, main.2.2 rfl⟩
